import Mathlib

/-!
Verification development for the CoopBuddy companion-agent server
(`server/brain.py`, `server/ws_server.py`, `server/main.py`).

The Python code is shallowly embedded: pure helpers become Lean functions,
the stateful `Brain` and `WSServer` objects become explicit state records
with one Lean function per method (time, the external completion call and
network outcomes are passed in as explicit arguments), and fallible Python
code (statements that can raise) returns `Except`.

Configuration values read from `config/settings.json` (`HISTORY_LENGTH`,
`COOLDOWNS`, `MAX_QUEUE_DEPTH`) are not part of the source tree, so they
appear as parameters (`max`, `cooldowns`, `queueCap`); the in-code default
`COOLDOWNS.get(event_type, 30)` is kept literally.
-/

namespace CoopBuddy

/- ── Python string helpers ─────────────────────────────────────────────── -/

/-- Whitespace characters stripped by Python `str.strip()` (restricted to the
ASCII range; Python additionally strips some rarer Unicode space characters,
which none of the strings in this development contain). -/
def pySpace (c : Char) : Bool :=
  c = ' ' || c = '\t' || c = '\n' || c = '\r' || c = '\x0b' || c = '\x0c'

/-- Python `str.strip()` on a character list: drop leading and trailing
whitespace. -/
def pyStripChars (cs : List Char) : List Char :=
  ((cs.dropWhile pySpace).reverse.dropWhile pySpace).reverse

/-- Python `str.strip()`. -/
def pyStrip (s : String) : String :=
  String.mk (pyStripChars s.data)

/-- Python `str.split(",")` (single-character separator): splits on every
comma; the empty string yields `[""]`. -/
def splitComma : List Char → List (List Char)
  | [] => [[]]
  | c :: rest =>
    let r := splitComma rest
    if c = ',' then [] :: r
    else
      match r with
      | [] => [[c]]
      | s :: ss => (c :: s) :: ss

/-- Join a list of strings with a separator (Python `sep.join(parts)`). -/
def joinSep (sep : String) : List String → String
  | [] => ""
  | [s] => s
  | s :: rest => s ++ sep ++ joinSep sep rest

/- ── The `_ACTION_PATTERN` regex engine ────────────────────────────────── -/

/-- A word character for the regex class `\w` (restricted to the ASCII
range; the Python `\w` class additionally matches non-ASCII word characters, which
no recognized action name contains). -/
def isWordChar (c : Char) : Bool :=
  c.isAlphanum || c = '_'

/-- Match a literal character sequence at the head of the input, returning
the rest on success. -/
def dropLit : List Char → List Char → Option (List Char)
  | [], cs => some cs
  | _ :: _, [] => none
  | p :: ps, c :: cs => if c = p then dropLit ps cs else none

/-- Attempt to match the regex `\[ACTION:(\w+)(?::([^\]]*))?\]` at the head
of the input.  On success returns the action name (group 1), the optional
parameter (group 2) and the remaining input after the match.  Mirrors the
backtracking behaviour of the Python pattern: `\w+` is effectively maximal
munch (neither `:` nor `]` is a word character), and the optional `:param`
group matches only when a `]` terminates it, otherwise it backtracks to
empty and the whole match fails unless `]` directly follows the name. -/
def tryTag (cs : List Char) : Option (String × Option String × List Char) :=
  match dropLit "[ACTION:".data cs with
  | none => none
  | some cs1 =>
    let w := cs1.takeWhile isWordChar
    let cs2 := cs1.dropWhile isWordChar
    if w.isEmpty then none
    else
      match cs2 with
      | ']' :: rest => some (String.mk w, none, rest)
      | ':' :: cs3 =>
        let p := cs3.takeWhile (fun c => c ≠ ']')
        match cs3.dropWhile (fun c => c ≠ ']') with
        | ']' :: rest => some (String.mk w, some (String.mk p), rest)
        | _ => none
      | _ => none

/-- Scan the whole input for non-overlapping matches of `_ACTION_PATTERN`,
left to right, as both `finditer` and `sub` do.  `fuel` bounds recursion and
is always called with at least the input length.  Returns the list of text
segments between matches (the concatenation of the segments is `re.sub(pattern,
"", text)`) and the matched `(name, param)` groups in order of appearance. -/
def scanGo : Nat → List Char → List (List Char) × List (String × Option String)
  | _, [] => ([[]], [])
  | 0, cs => ([cs], [])
  | n + 1, c :: cs =>
    match tryTag (c :: cs) with
    | some (nm, p, rest) =>
      let r := scanGo n rest
      ([] :: r.1, (nm, p) :: r.2)
    | none =>
      let r := scanGo n cs
      (match r.1 with
       | [] => [[c]]
       | s :: ss => (c :: s) :: ss, r.2)

/-- All matches of `_ACTION_PATTERN` in the text: segments between matches
and the `(name, param)` groups in left-to-right order. -/
def scanParts (cs : List Char) : List (List Char) × List (String × Option String) :=
  scanGo cs.length cs

/-- The `(name, param)` groups of the tags recognized in `s`, in order. -/
def tagsOf (s : String) : List (String × Option String) :=
  (scanParts s.data).2

/-- Embeds `re.sub(_ACTION_PATTERN, "", s)`: the text with every matched tag span
removed (before the final `strip()`). -/
def removedTags (s : String) : List Char :=
  (scanParts s.data).1.flatten

/- ── Actions and parameter parsing ─────────────────────────────────────── -/

/-- The structured actions produced by `_extract_actions` (brain.py
lines 84-103).  `look_at` coordinates are the values of Python `float()`
on the three comma-fields, represented exactly as rationals. -/
inductive Action
  | send_chat (message : String)
  | follow_player (name : String)
  | stop_follow
  | look_at (x y z : ℚ)
  | eat
  | attack_mob (name : Option String)
  | flee
  | stop_attack
deriving DecidableEq

/-- Numeric value of a digit run. -/
def digitsVal (ds : List Char) : Nat :=
  ds.foldl (fun a c => 10 * a + (c.toNat - 48)) 0

/-- Assemble a parsed float literal: sign, integer digits, fraction digits,
decimal exponent. -/
def ratOfParts (sgn : Int) (ip fp : List Char) (ex : Int) : ℚ :=
  (sgn : ℚ) * ((digitsVal (ip ++ fp) : ℚ) / ((10 : ℚ) ^ fp.length)) * (10 : ℚ) ^ ex

/-- Python `float(s)` on finite decimal literals: optional surrounding
whitespace, optional sign, digits with an optional fractional part (at least
one digit overall), optional exponent.  Raises (returns `.error`) on
anything else, e.g. `float("a")` or `float("")`.  (Python additionally
accepts `inf`/`nan` spellings and underscore digit separators, which no
input in this development uses.) -/
def pyFloat (cs0 : List Char) : Except Unit ℚ :=
  let cs := pyStripChars cs0
  let sgncs : Int × List Char :=
    match cs with
    | '+' :: r => (1, r)
    | '-' :: r => (-1, r)
    | r => (1, r)
  let ip := sgncs.2.takeWhile Char.isDigit
  let cs2 := sgncs.2.dropWhile Char.isDigit
  let fpcs : List Char × List Char :=
    match cs2 with
    | '.' :: r => (r.takeWhile Char.isDigit, r.dropWhile Char.isDigit)
    | r => ([], r)
  if ip.isEmpty && fpcs.1.isEmpty then .error ()
  else
    match fpcs.2 with
    | [] => .ok (ratOfParts sgncs.1 ip fpcs.1 0)
    | e :: r =>
      if e = 'e' || e = 'E' then
        let esgn : Int × List Char :=
          match r with
          | '+' :: r2 => (1, r2)
          | '-' :: r2 => (-1, r2)
          | r2 => (1, r2)
        let ed := esgn.2.takeWhile Char.isDigit
        let rest := esgn.2.dropWhile Char.isDigit
        if ed.isEmpty || !rest.isEmpty then .error ()
        else .ok (ratOfParts sgncs.1 ip fpcs.1 (esgn.1 * (digitsVal ed : Int)))
      else .error ()

/-- One iteration of the `finditer` loop body in `_extract_actions`
(brain.py lines 82-103): turn a matched `(name, param)` pair into an action,
`none` when the branch appends nothing (unknown name, or `look_at` with a
comma-arity other than 3), or `.error` when the Python code raises
(`float()` on a non-numeric field).  `param = match.group(2) or ""` maps an
absent group to the empty string. -/
def actionOfTag (name : String) (param0 : Option String) : Except Unit (Option Action) :=
  let param := param0.getD ""
  if name = "send_chat" then .ok (some (.send_chat param))
  else if name = "follow_player" then .ok (some (.follow_player param))
  else if name = "stop_follow" then .ok (some .stop_follow)
  else if name = "look_at" then
    match splitComma param.data with
    | [a, b, c] => do
      let x ← pyFloat a
      let y ← pyFloat b
      let z ← pyFloat c
      .ok (some (.look_at x y z))
    | _ => .ok none
  else if name = "eat" then .ok (some .eat)
  else if name = "attack_mob" then
    .ok (some (.attack_mob (if param = "" then none else some param)))
  else if name = "flee" then .ok (some .flee)
  else if name = "stop_attack" then .ok (some .stop_attack)
  else .ok none

/-- The full `finditer` loop: process the matched tags in order,
propagating a raise from any iteration. -/
def collectActions : List (String × Option String) → Except Unit (List Action)
  | [] => .ok []
  | (n, p) :: ts =>
    match actionOfTag n p with
    | .error e => .error e
    | .ok a =>
      match collectActions ts with
      | .error e => .error e
      | .ok rest =>
        match a with
        | some act => .ok (act :: rest)
        | none => .ok rest

/-- Embeds `_extract_actions` (brain.py lines 78-105): returns
`(clean_text, actions)` where `clean_text` is the input with every matched
tag span removed and then stripped, or `.error` when the loop raises. -/
def extract_actions (text : String) : Except Unit (String × List Action) :=
  match collectActions (tagsOf text) with
  | .error e => .error e
  | .ok acts => .ok (String.mk (pyStripChars (removedTags text)), acts)

/- ── Spec-side clean-text definition (for comparison only) ─────────────── -/

/-- Drop trailing whitespace. -/
def dropTrailingSpace (cs : List Char) : List Char :=
  (cs.reverse.dropWhile pySpace).reverse

/-- Clean text as the specification words it — "the input with every
recognized tag substring removed and the whitespace surrounding each
removed tag collapsed": at each removal site, the whitespace runs adjacent
to the removed tag are collapsed to a single space (to nothing when the tag
had no surrounding whitespace).  This definition follows the words of the spec,
not the source, and is compared against `extract_actions`. -/
def joinCollapse : List (List Char) → List Char
  | [] => []
  | [s] => s
  | s :: rest =>
    let r := joinCollapse rest
    let s2 := dropTrailingSpace s
    let r2 := r.dropWhile pySpace
    if s2.length ≠ s.length || r2.length ≠ r.length then s2 ++ ' ' :: r2 else s2 ++ r2

/-- The clean text the specification describes (see `joinCollapse`). -/
def specCleanText (s : String) : String :=
  String.mk (joinCollapse (scanParts s.data).1)

/-- Decidable check for an occurrence of the tag marker `[ACTION:` anywhere
in the text; every match of `_ACTION_PATTERN` starts with this marker. -/
def containsTagMarker : List Char → Bool
  | [] => false
  | c :: cs => (dropLit "[ACTION:".data (c :: cs)).isSome || containsTagMarker cs

/- ── Game state snapshot and its rendering ─────────────────────────────── -/

/-- An entry of the `nearbyHostile` list.  Values are modelled by the string
the f-string interpolation of Python renders them to. -/
structure Mob where
  name : String
  distance : String
deriving DecidableEq

/-- An entry of the `inventory` list. -/
structure InvItem where
  name : String
  count : String
deriving DecidableEq

/-- An entry of the `potionEffects` list; `amplifier` is absent when the
dict has no `"amplifier"` key (`e.get("amplifier", 0)`). -/
structure Effect where
  name : String
  amplifier : Option Int
deriving DecidableEq

/-- The game-state dict.  Each recognized key is `Option` (absent vs
present); `extraKeys` records the unrecognized keys so that Python dict
truthiness (`if game_state:`) is preserved.  Scalar values are modelled by
their interpolated string form. -/
structure GameState where
  playerHealth : Option String := none
  playerFood : Option String := none
  biome : Option String := none
  timeOfDay : Option String := none
  dimension : Option String := none
  isRaining : Option Bool := none
  nearbyHostile : Option (List Mob) := none
  inventory : Option (List InvItem) := none
  potionEffects : Option (List Effect) := none
  extraKeys : List String := []
deriving DecidableEq

/-- Python dict truthiness of the snapshot: at least one key present. -/
def GameState.nonemptyDict (g : GameState) : Bool :=
  g.playerHealth.isSome || g.playerFood.isSome || g.biome.isSome ||
  g.timeOfDay.isSome || g.dimension.isSome || g.isRaining.isSome ||
  g.nearbyHostile.isSome || g.inventory.isSome || g.potionEffects.isSome ||
  !g.extraKeys.isEmpty

/-- At least one field recognized by `_format_game_state` is present. -/
def GameState.hasRecognizedField (g : GameState) : Bool :=
  g.playerHealth.isSome || g.playerFood.isSome || g.biome.isSome ||
  g.timeOfDay.isSome || g.dimension.isSome || g.isRaining.isSome ||
  g.nearbyHostile.isSome || g.inventory.isSome || g.potionEffects.isSome

/-- Embeds `_roman` (brain.py lines 137-139). -/
def roman (n : Int) : String :=
  if n = 1 then "I"
  else if n = 2 then "II"
  else if n = 3 then "III"
  else if n = 4 then "IV"
  else if n = 5 then "V"
  else toString n

/-- Render one potion effect (`_fmt_effect`, brain.py lines 167-169). -/
def fmtEffect (e : Effect) : String :=
  let amp := e.amplifier.getD 0
  e.name ++ (if amp > 0 then " " ++ roman (amp + 1) else "")

/-- Embeds `_format_game_state` (brain.py lines 142-174): the compact single-line
context block, or `""` when no recognized field contributes a part. -/
def format_game_state (gs : GameState) : String :=
  let parts : List String :=
    (match gs.playerHealth with | some v => ["HP:" ++ v ++ "/20"] | none => []) ++
    (match gs.playerFood with | some v => ["Food:" ++ v ++ "/20"] | none => []) ++
    (match gs.biome with | some v => ["Biome:" ++ v] | none => []) ++
    (match gs.timeOfDay with | some v => ["Time:" ++ v] | none => []) ++
    (match gs.dimension with | some v => ["Dim:" ++ v] | none => []) ++
    (if gs.isRaining = some true then ["Raining"] else []) ++
    (let hs := gs.nearbyHostile.getD []
     if hs.isEmpty then []
     else ["Hostiles:[" ++
           joinSep ", " ((hs.take 3).map fun m => m.name ++ "(" ++ m.distance ++ "blk)") ++ "]"]) ++
    (let inv := gs.inventory.getD []
     if inv.isEmpty then []
     else ["Inv:[" ++ joinSep ", " ((inv.take 6).map fun i => i.name ++ "x" ++ i.count) ++ "]"]) ++
    (let effects := gs.potionEffects.getD []
     if effects.isEmpty then []
     else ["Effects:[" ++ joinSep ", " ((effects.take 3).map fmtEffect) ++ "]"])
  if parts.isEmpty then "" else "[GAME STATE] " ++ joinSep " | " parts

/- ── Conversation history ──────────────────────────────────────────────── -/

/-- One conversation turn (`{"role": ..., "content": ...}`). -/
structure Turn where
  role : String
  content : String
deriving DecidableEq

/-- Embeds `ConversationHistory`: `max` is the `max_turns` constructor argument
(`HISTORY_LENGTH` in the running system); `turns` is oldest first. -/
structure ConversationHistory where
  max : Nat
  turns : List Turn
deriving DecidableEq

/-- The `while` loop of `_trim` (brain.py lines 132-134), with explicit
fuel: pop the oldest turn while more than `2 * max` remain. -/
def trimGo (max : Nat) : Nat → List Turn → List Turn
  | 0, ts => ts
  | n + 1, ts => if ts.length > max * 2 then trimGo max n ts.tail else ts

/-- Embeds `_trim`: the loop runs at most `length` iterations. -/
def ConversationHistory.trim (h : ConversationHistory) : ConversationHistory :=
  { h with turns := trimGo h.max h.turns.length h.turns }

/-- The content string built by `add_user` (brain.py lines 117-122):
the rendered game state plus a blank line when the snapshot dict is
truthy, then the text. -/
def userContent (text : String) (gs : Option GameState) : String :=
  (match gs with
   | some g => if g.nonemptyDict then format_game_state g ++ "\n\n" else ""
   | none => "") ++ text

/-- Embeds `ConversationHistory.add_user`. -/
def ConversationHistory.add_user (h : ConversationHistory) (text : String)
    (gs : Option GameState) : ConversationHistory :=
  ConversationHistory.trim { h with turns := h.turns ++ [⟨"user", userContent text gs⟩] }

/-- Embeds `ConversationHistory.add_assistant` (brain.py lines 125-127). -/
def ConversationHistory.add_assistant (h : ConversationHistory) (text : String) :
    ConversationHistory :=
  ConversationHistory.trim { h with turns := h.turns ++ [⟨"assistant", text⟩] }

/-- Embeds `get_messages` (brain.py lines 129-130): a copy of the turn list. -/
def ConversationHistory.get_messages (h : ConversationHistory) : List Turn :=
  h.turns

/- ── Dict helpers for cooldowns and event data ─────────────────────────── -/

/-- Python `d.get(k)` on an insertion-ordered dict modelled as an
association list. -/
def dictGet {α : Type} : List (String × α) → String → Option α
  | [], _ => none
  | (k, v) :: rest, key => if k = key then some v else dictGet rest key

/-- Python `d[k] = v`: overwrite in place when the key exists, else append. -/
def dictSet {α : Type} : List (String × α) → String → α → List (String × α)
  | [], key, v => [(key, v)]
  | (k, w) :: rest, key, v =>
    if k = key then (key, v) :: rest else (k, w) :: dictSet rest key v

/-- Event payloads: a dict whose values are modelled by the string Python
interpolates them to (`f"... {data.get(...)} ..."`). -/
def EventData := List (String × String)
deriving DecidableEq

/-- Embeds `json.dumps` on such a payload (only reached by the generic event
template; all values render as JSON strings here since values are modelled
as strings). -/
def jsonDumps (d : List (String × String)) : String :=
  String.mk ['\x7b'] ++
  joinSep ", " (d.map fun kv => "\"" ++ kv.1 ++ "\": \"" ++ kv.2 ++ "\"") ++
  String.mk ['\x7d']

/-- Embeds `_build_event_prompt` (brain.py lines 271-328). -/
def build_event_prompt (event_type : String) (data : EventData) : String :=
  let get := fun (k d : String) => (dictGet data k).getD d
  if event_type = "mob_spawn" then
    "[EVENT] A " ++ get "name" "something" ++ " just spawned " ++
      get "distance" "?" ++ " blocks away from us."
  else if event_type = "player_death" then
    "[EVENT] I just died. Death message: " ++ get "cause" "something"
  else if event_type = "health_low" then
    "[EVENT] My health just dropped to " ++ get "health" "?" ++ " hearts."
  else if event_type = "weather_change" then
    "[EVENT] Weather changed — it\x27s now " ++ get "weather" "unknown" ++ "."
  else if event_type = "player_join" then
    "[EVENT] " ++ get "name" "someone" ++ " just joined the server."
  else if event_type = "health_critical" then
    "[EVENT] My health is at " ++ get "health" "?" ++
      " — that\x27s critical, we need to act fast."
  else if event_type = "night_fall" then
    "[EVENT] It just turned night. Mobs are going to start spawning."
  else if event_type = "dawn" then
    "[EVENT] Sun\x27s coming up. We made it through the night."
  else if event_type = "biome_change" then
    "[EVENT] We just crossed into a " ++ get "to" "somewhere" ++ " biome (was " ++
      get "from" "somewhere" ++ ")."
  else if event_type = "item_pickup" then
    let who := if dictGet data "collector" = some "bot" then "I" else "You"
    "[EVENT] " ++ who ++ " just picked up " ++ get "item" "something" ++ "."
  else if event_type = "creeper_nearby" then
    "[EVENT] There\x27s a creeper only " ++ get "distance" "?" ++
      " blocks away from us."
  else if event_type = "under_attack" then
    "[EVENT] I\x27m being attacked by a " ++ get "attacker" "something" ++ "! HP: " ++
      get "health" "?" ++ ". I auto-" ++ get "action_taken" "nothing" ++ "ed."
  else if event_type = "mob_killed" then
    "[EVENT] Just took out a " ++ get "mob" "something" ++ ". Nice."
  else
    "[EVENT] " ++ event_type ++ ": " ++ jsonDumps data

/- ── The Brain (response engine) ───────────────────────────────────────── -/

/-- The fixed apologetic utterance `_call_claude` substitutes on a failed
completion call (brain.py line 268). -/
def FALLBACK_TEXT : String :=
  "...bruh my brain just lagged, what were you saying?"

/-- Embeds `_call_claude` (brain.py lines 255-268): the external completion call,
whose outcome is passed in as `llm`; any exception is converted to the
fixed fallback utterance. -/
def call_claude (llm : Except Unit String) : String :=
  match llm with
  | .ok r => r
  | .error _ => FALLBACK_TEXT

/-- Mutable state of a `Brain` instance (brain.py lines 182-191).
`lastEventTime` is `_last_event_time` (timestamps as integers; the claims
depend only on comparisons), `lockLocked` whether `_proactive_lock` is held
by some other task when a call starts, `queue`/`queueCap` the bounded
`_proactive_queue` and its `maxsize` (`MAX_QUEUE_DEPTH`; an
`asyncio.Queue` with `maxsize <= 0` is unbounded, hence the cap applies
only when positive). -/
structure BrainState where
  history : ConversationHistory
  gameState : GameState
  voiceActive : Bool
  lastEventTime : List (String × Int)
  lockLocked : Bool
  queue : List (String × EventData)
  queueCap : Nat
deriving DecidableEq

/-- Embeds `Brain.set_voice_active` (brain.py lines 197-199). -/
def set_voice_active (st : BrainState) (active : Bool) : BrainState :=
  { st with voiceActive := active }

/-- Embeds `dict.update` for the snapshot: keys of `new` overwrite, other keys
survive (brain.py lines 193-195). -/
def GameState.updateWith (old new : GameState) : GameState where
  playerHealth := new.playerHealth <|> old.playerHealth
  playerFood := new.playerFood <|> old.playerFood
  biome := new.biome <|> old.biome
  timeOfDay := new.timeOfDay <|> old.timeOfDay
  dimension := new.dimension <|> old.dimension
  isRaining := new.isRaining <|> old.isRaining
  nearbyHostile := new.nearbyHostile <|> old.nearbyHostile
  inventory := new.inventory <|> old.inventory
  potionEffects := new.potionEffects <|> old.potionEffects
  extraKeys := old.extraKeys ++ new.extraKeys.filter (fun k => ¬ k ∈ old.extraKeys)

/-- Embeds `Brain.update_game_state`. -/
def update_game_state (st : BrainState) (gs : GameState) : BrainState :=
  { st with gameState := st.gameState.updateWith gs }

/-- Embeds `Brain.think` (brain.py lines 201-213).  `llm` is the outcome of the
external completion call; the result is `.error` exactly when
`_extract_actions` raises on the response (the only statement of the body
that can raise); the state is returned alongside since Python mutates it in
place before a raise propagates. -/
def think (st : BrainState) (user_input : String) (llm : Except Unit String) :
    Except Unit (String × List Action) × BrainState :=
  let st1 := { st with history := st.history.add_user user_input (some st.gameState) }
  let response := call_claude llm
  match extract_actions response with
  | .error e => (.error e, st1)
  | .ok p => (.ok p, { st1 with history := st1.history.add_assistant response })

/-- The default cooldown lookup `COOLDOWNS.get(event_type, 30)`
(brain.py line 225); the table itself comes from `config/settings.json`
and is a parameter. -/
def cooldownFor (cooldowns : List (String × Int)) (event_type : String) : Int :=
  (dictGet cooldowns event_type).getD 30

/-- Embeds `Brain.handle_game_event` (brain.py lines 215-253).  `now` is the value
of `time.time()`; `llm` the outcome of the completion call.  Returns
`.ok none` when suppressed (voice active, cooldown, or lock held — in the
last case after a possible enqueue), `.ok (some (text, actions))` on a
processed event, and `.error` when `_extract_actions` raises. -/
def handle_game_event (cooldowns : List (String × Int)) (st : BrainState)
    (event_type : String) (data : EventData) (now : Int)
    (llm : Except Unit String) :
    Except Unit (Option (String × List Action)) × BrainState :=
  if st.voiceActive then (.ok none, st)
  else
    let cooldown := cooldownFor cooldowns event_type
    let last := (dictGet st.lastEventTime event_type).getD 0
    if now - last < cooldown then (.ok none, st)
    else if st.lockLocked then
      -- put_nowait: raises QueueFull (caught: drop) when the queue is
      -- bounded and at capacity, else enqueues.
      if 0 < st.queueCap ∧ st.queueCap ≤ st.queue.length then (.ok none, st)
      else (.ok none, { st with queue := st.queue ++ [(event_type, data)] })
    else
      let st1 := { st with lastEventTime := dictSet st.lastEventTime event_type now }
      let prompt := build_event_prompt event_type data
      let st2 := { st1 with history := st1.history.add_user prompt (some st1.gameState) }
      let response := call_claude llm
      match extract_actions response with
      | .error e => (.error e, st2)
      | .ok p => (.ok (some p), { st2 with history := st2.history.add_assistant response })

/-- The public operations of the response engine, for temporal statements
quantifying over everything the engine can do. -/
inductive BrainOp
  | opThink (input : String) (llm : Except Unit String)
  | opEvent (event_type : String) (data : EventData) (now : Int) (llm : Except Unit String)
  | opSetVoice (active : Bool)
  | opUpdateState (gs : GameState)

/-- One engine operation: the (possibly exceptional, possibly suppressed)
reply visible to the caller, and the successor state. -/
def brainStep (cooldowns : List (String × Int)) (st : BrainState) :
    BrainOp → Except Unit (Option (String × List Action)) × BrainState
  | .opThink input llm =>
    let r := think st input llm
    (r.1.map some, r.2)
  | .opEvent event_type data now llm => handle_game_event cooldowns st event_type data now llm
  | .opSetVoice active => (.ok none, set_voice_active st active)
  | .opUpdateState gs => (.ok none, update_game_state st gs)

/- ── The bridge server (`ws_server.py`) ────────────────────────────────── -/

/-- Outbound wire message relevant to the send API
(`{"type": "action", "action": ..., "params": ...}`). -/
structure ActionMsg where
  action : String
  params : List (String × String)
deriving DecidableEq

/-- Outcome of `websocket.send` on a live connection. -/
inductive SendOutcome
  | delivered
  | closed
  | otherError
deriving DecidableEq

/-- State of a `WSServer`: the single connection slot (`None` when
disconnected) and the log of messages actually written to the peer —
the code has no outgoing buffer, so `sentLog` only ever grows by messages
delivered right away. -/
structure WSState where
  connected : Bool
  sentLog : List ActionMsg
deriving DecidableEq

/-- Embeds `WSServer._send` (ws_server.py lines 125-138): `False` without effect
when there is no connection; on a send error the connection slot is cleared
(`ConnectionClosed`) or kept (other exceptions), returning `False`;
exceptions never propagate. -/
def ws_send (st : WSState) (msg : ActionMsg) (outcome : SendOutcome) : Bool × WSState :=
  if ¬ st.connected then (false, st)
  else
    match outcome with
    | .delivered => (true, { st with sentLog := st.sentLog ++ [msg] })
    | .closed => (false, { st with connected := false })
    | .otherError => (false, st)

/-- Embeds `WSServer.send_action` (ws_server.py lines 40-46). -/
def send_action (st : WSState) (action : String) (params : Option (List (String × String)))
    (outcome : SendOutcome) : Bool × WSState :=
  if ¬ st.connected then (false, st)
  else ws_send st ⟨action, params.getD []⟩ outcome

/-- Embeds `WSServer.send_chat` (ws_server.py lines 48-52): truncate to 250
characters, then `send_action "send_chat"`. -/
def send_chat (st : WSState) (message : String) (outcome : SendOutcome) : Bool × WSState :=
  send_action st "send_chat" (some [("message", String.mk (message.data.take 250))]) outcome

/- ── Derived definitions used in theorem statements ────────────────────── -/

/-- The action a single recognized tag contributes when its loop iteration
does not raise: `some` for a recognized name with well-formed parameters,
`none` for an unknown name or a `look_at` arity mismatch. -/
def tagAction (t : String × Option String) : Option Action :=
  match actionOfTag t.1 t.2 with
  | .ok a => a
  | .error _ => none

/-- One append to the conversation window, for statements about sequences
of appends. -/
inductive HistMsg
  | user (text : String) (gs : Option GameState)
  | assistant (text : String)
deriving DecidableEq

/-- The turn a single append stores. -/
def renderTurn : HistMsg → Turn
  | .user t gs => ⟨"user", userContent t gs⟩
  | .assistant t => ⟨"assistant", t⟩

/-- Apply a sequence of appends to the window, oldest first. -/
def applyHist (h : ConversationHistory) : List HistMsg → ConversationHistory
  | [] => h
  | .user t gs :: ms => applyHist (h.add_user t gs) ms
  | .assistant t :: ms => applyHist (h.add_assistant t) ms

/-- A snapshot dict that is non-empty (truthy) yet has no field
`_format_game_state` recognizes. -/
def snapshotNoRecognized : GameState := { extraKeys := ["mysteryKey"] }

/-- A quiescent brain state used to instantiate theorems: voice inactive,
no cooldown stamps, lock free, empty queue of capacity 3. -/
def demoBrain : BrainState where
  history := ⟨5, []⟩
  gameState := {}
  voiceActive := false
  lastEventTime := []
  lockLocked := false
  queue := []
  queueCap := 3

/- ══ Theorems ══════════════════════════════════════════════════════════ -/

/- ── List and strip helper lemmas ──────────────────────────────────────── -/

theorem dropWhile_self_dropWhile (p : Char → Bool) :
    ∀ l : List Char, (l.dropWhile p).dropWhile p = l.dropWhile p := by
  intro l
  induction l with
  | nil => rfl
  | cons c cs ih =>
    by_cases h : p c
    · simp [List.dropWhile_cons_of_pos h, ih]
    · simp [List.dropWhile_cons_of_neg h, h]

theorem dropWhile_head_not (p : Char → Bool) :
    ∀ (l : List Char) (c : Char) (cs : List Char),
      l.dropWhile p = c :: cs → p c = false := by
  intro l
  induction l with
  | nil => intro c cs h; simp [List.dropWhile] at h
  | cons x xs ih =>
    intro c cs h
    by_cases hx : p x
    · rw [List.dropWhile_cons_of_pos hx] at h; exact ih c cs h
    · rw [List.dropWhile_cons_of_neg hx] at h
      cases h
      simpa using hx

theorem stripAux_head_not (a : List Char) (h : ∀ d tl, a = d :: tl → pySpace d = false) :
    ((a.reverse.dropWhile pySpace).reverse).dropWhile pySpace =
      (a.reverse.dropWhile pySpace).reverse := by
  cases hrev : (a.reverse.dropWhile pySpace).reverse with
  | nil => simp
  | cons d ds =>
    have hsplit : a.reverse.takeWhile pySpace ++ a.reverse.dropWhile pySpace = a.reverse :=
      List.takeWhile_append_dropWhile ..
    have haeq : a = (a.reverse.dropWhile pySpace).reverse ++
        (a.reverse.takeWhile pySpace).reverse := by
      conv_lhs => rw [← List.reverse_reverse a, ← hsplit]
      rw [List.reverse_append]
    have hhead : a = d :: (ds ++ (a.reverse.takeWhile pySpace).reverse) := by
      conv_lhs => rw [haeq, hrev]
      rfl
    have hd : pySpace d = false := h d _ hhead
    exact List.dropWhile_cons_of_neg (by simp [hd])

theorem pyStripChars_idem (cs : List Char) :
    pyStripChars (pyStripChars cs) = pyStripChars cs := by
  unfold pyStripChars
  have hstep := stripAux_head_not (cs.dropWhile pySpace)
    (fun d tl hd => dropWhile_head_not pySpace cs d tl hd)
  rw [hstep, List.reverse_reverse, dropWhile_self_dropWhile]

/- ── Extractor lemmas ──────────────────────────────────────────────────── -/

theorem collectActions_ok :
    ∀ (ts : List (String × Option String)) (acts : List Action),
      collectActions ts = .ok acts → acts = ts.filterMap tagAction := by
  intro ts
  induction ts with
  | nil =>
    intro acts h
    simp only [collectActions, Except.ok.injEq] at h
    simp [← h]
  | cons hd tl ih =>
    intro acts h
    obtain ⟨n, p⟩ := hd
    rw [collectActions] at h
    cases h1 : actionOfTag n p with
    | error e => rw [h1] at h; simp at h
    | ok a =>
      rw [h1] at h
      cases h2 : collectActions tl with
      | error e => rw [h2] at h; cases a <;> simp at h
      | ok rest =>
        rw [h2] at h
        have hrest := ih rest h2
        cases a with
        | none =>
          simp only [Except.ok.injEq] at h
          simp [List.filterMap_cons, tagAction, h1, ← h, hrest]
        | some act =>
          simp only [Except.ok.injEq] at h
          simp [List.filterMap_cons, tagAction, h1, ← h, hrest]

/-- Unfolding equation of `scanGo` when a tag matches at the head. -/
theorem scanGo_succ_some (n : Nat) (c : Char) (cs rest : List Char) (nm : String)
    (p : Option String) (h : tryTag (c :: cs) = some (nm, p, rest)) :
    scanGo (n + 1) (c :: cs) = ([] :: (scanGo n rest).1, (nm, p) :: (scanGo n rest).2) := by
  rw [scanGo, h]

/-- Unfolding equation of `scanGo` when no tag matches at the head. -/
theorem scanGo_succ_none (n : Nat) (c : Char) (cs : List Char)
    (h : tryTag (c :: cs) = none) :
    scanGo (n + 1) (c :: cs) =
      ((match (scanGo n cs).1 with
        | [] => [[c]]
        | s :: ss => (c :: s) :: ss), (scanGo n cs).2) := by
  rw [scanGo, h]

theorem scanGo_segs_ne_nil (n : Nat) (cs : List Char) : (scanGo n cs).1 ≠ [] := by
  match n, cs with
  | _, [] => simp [scanGo]
  | 0, c :: cs => simp [scanGo]
  | n + 1, c :: cs =>
    cases h : tryTag (c :: cs) with
    | some t =>
      obtain ⟨nm, p, rest⟩ := t
      rw [scanGo_succ_some n c cs rest nm p h]
      simp
    | none =>
      rw [scanGo_succ_none n c cs h]
      cases h2 : (scanGo n cs).1 <;> simp [h2]

theorem scanGo_no_tags_flatten :
    ∀ (n : Nat) (cs : List Char), cs.length ≤ n → (scanGo n cs).2 = [] →
      (scanGo n cs).1.flatten = cs := by
  intro n
  induction n with
  | zero =>
    intro cs hn _
    have : cs = [] := List.length_eq_zero.mp (Nat.le_zero.mp hn)
    subst this; rfl
  | succ n ih =>
    intro cs hn htags
    cases cs with
    | nil => rfl
    | cons c cs =>
      cases h : tryTag (c :: cs) with
      | some t =>
        obtain ⟨nm, p, rest⟩ := t
        rw [scanGo_succ_some n c cs rest nm p h] at htags
        simp at htags
      | none =>
        rw [scanGo_succ_none n c cs h] at htags ⊢
        simp only at htags ⊢
        have hlen : cs.length ≤ n := by simpa using hn
        have hflat := ih cs hlen htags
        cases h2 : (scanGo n cs).1 with
        | nil => exact absurd h2 (scanGo_segs_ne_nil n cs)
        | cons s ss =>
          rw [h2] at hflat
          simp only [h2, List.flatten_cons] at hflat ⊢
          rw [← hflat]
          rfl

theorem tryTag_marker (cs : List Char) (t : String × Option String × List Char) :
    tryTag cs = some t → (dropLit "[ACTION:".data cs).isSome = true := by
  intro h
  unfold tryTag at h
  cases hd : dropLit "[ACTION:".data cs with
  | none => rw [hd] at h; simp at h
  | some r => simp

theorem scanGo_no_marker_tags :
    ∀ (n : Nat) (cs : List Char), cs.length ≤ n → containsTagMarker cs = false →
      (scanGo n cs).2 = [] := by
  intro n
  induction n with
  | zero =>
    intro cs hn _
    have : cs = [] := List.length_eq_zero.mp (Nat.le_zero.mp hn)
    subst this; rfl
  | succ n ih =>
    intro cs hn hm
    cases cs with
    | nil => rfl
    | cons c cs =>
      rw [containsTagMarker] at hm
      simp only [Bool.or_eq_false_iff] at hm
      cases h : tryTag (c :: cs) with
      | some t =>
        have := tryTag_marker _ _ h
        rw [hm.1] at this
        simp at this
      | none =>
        rw [scanGo_succ_none n c cs h]
        exact ih cs (by simpa using hn) hm.2

/-- On a successful run, the clean text is exactly the input with the
matched spans removed, then stripped. -/
theorem extract_ok_clean (s clean : String) (acts : List Action)
    (h : extract_actions s = .ok (clean, acts)) :
    clean = String.mk (pyStripChars (removedTags s)) ∧
      collectActions (tagsOf s) = .ok acts := by
  unfold extract_actions at h
  cases hc : collectActions (tagsOf s) with
  | error e => rw [hc] at h; simp at h
  | ok a =>
    rw [hc] at h
    simp only [Except.ok.injEq, Prod.mk.injEq] at h
    exact ⟨h.1.symm, by rw [h.2]⟩

/-- C1: the Command Extractor does NOT return normally on every input: a
`look_at` tag whose parameter splits into exactly 3 comma-fields that are
not all numeric makes the loop raise `ValueError` from `float()`
(brain.py line 94), which propagates out of `_extract_actions`.  The other
edge cases the claim lists do degrade as described: wrong arity
(`1,2`) strips the tag and emits no action, and an unknown action name
strips the tag and emits no action. -/
theorem extract_look_at_nonnumeric_raises :
    extract_actions "[ACTION:look_at:a,b,c]" = .error () ∧
    extract_actions "[ACTION:look_at:1,2]" = .ok ("", []) ∧
    extract_actions "[ACTION:frobnicate:x]" = .ok ("", []) :=
  ⟨rfl, rfl, rfl⟩

/-- C2 counterexample: the code does not collapse the whitespace
surrounding a removed tag — `"a [ACTION:eat] b"` yields `"a  b"` (two
spaces), while the description in the spec (`specCleanText`) yields `"a b"`. -/
theorem extract_whitespace_not_collapsed :
    extract_actions "a [ACTION:eat] b" = .ok ("a  b", [.eat]) ∧
    specCleanText "a [ACTION:eat] b" = "a b" ∧
    ("a  b" : String) ≠ "a b" :=
  ⟨rfl, rfl, by decide⟩

/-- C2 (amended): whenever `_extract_actions` returns, the clean text is
the input with every recognized tag span removed and then stripped of
leading and trailing whitespace (interior whitespace is preserved, not
collapsed), and the action list is the per-tag actions in the
left-to-right order the tags appeared in; with zero recognized tags the
result is the stripped input and an empty action list. -/
theorem extract_actions_characterisation :
    ∀ (s clean : String) (acts : List Action),
      extract_actions s = .ok (clean, acts) →
      (clean = String.mk (pyStripChars (removedTags s)) ∧
       acts = (tagsOf s).filterMap tagAction) ∧
      (tagsOf s = [] → clean = pyStrip s ∧ acts = []) := by
  intro s clean acts h
  obtain ⟨hclean, hcoll⟩ := extract_ok_clean s clean acts h
  have hacts := collectActions_ok (tagsOf s) acts hcoll
  refine ⟨⟨hclean, hacts⟩, fun hz => ⟨?_, by simp [hacts, hz]⟩⟩
  have hflat : (scanParts s.data).1.flatten = s.data :=
    scanGo_no_tags_flatten s.data.length s.data (Nat.le_refl _) hz
  rw [hclean]
  unfold pyStrip removedTags
  rw [hflat]

/-- C2 witness: a concrete successful run instantiating
`extract_actions_characterisation`. -/
theorem extract_actions_characterisation_witness :
    extract_actions "go [ACTION:follow_player:Steve] now" =
      .ok ("go  now", [.follow_player "Steve"]) ∧
    (("go  now" : String) =
       String.mk (pyStripChars (removedTags "go [ACTION:follow_player:Steve] now")) ∧
     [Action.follow_player "Steve"] =
       (tagsOf "go [ACTION:follow_player:Steve] now").filterMap tagAction) :=
  ⟨rfl, (extract_actions_characterisation "go [ACTION:follow_player:Steve] now" "go  now"
      [Action.follow_player "Steve"] rfl).1⟩

/-- C10 counterexample: stripping a tag can splice the surrounding text
into a new recognized tag, so the extractor is not idempotent — the clean
text of `"[ACTION[ACTION:eat]:eat]"` is `"[ACTION:eat]"`, and a second run
on it returns different clean text and a non-empty action list. -/
theorem extract_not_idempotent :
    extract_actions "[ACTION[ACTION:eat]:eat]" = .ok ("[ACTION:eat]", [.eat]) ∧
    extract_actions "[ACTION:eat]" = .ok ("", [.eat]) ∧
    ("" : String) ≠ "[ACTION:eat]" ∧ ([Action.eat] : List Action) ≠ [] :=
  ⟨rfl, rfl, by decide, by decide⟩

/-- C10 (amended): the clean text may itself contain recognized tags (see
`extract_not_idempotent`); whenever it contains no occurrence of the
marker `[ACTION:` — which every recognized tag starts with — running the
extractor on it returns the very same text and an empty action list. -/
theorem extract_clean_reextract :
    ∀ (s clean : String) (acts : List Action),
      extract_actions s = .ok (clean, acts) →
      containsTagMarker clean.data = false →
      extract_actions clean = .ok (clean, []) := by
  intro s clean acts h hm
  obtain ⟨hclean, -⟩ := extract_ok_clean s clean acts h
  have hdata : clean.data = pyStripChars (removedTags s) := by rw [hclean]
  have htags : tagsOf clean = [] :=
    scanGo_no_marker_tags clean.data.length clean.data (Nat.le_refl _) hm
  have hflat : (scanParts clean.data).1.flatten = clean.data :=
    scanGo_no_tags_flatten clean.data.length clean.data (Nat.le_refl _) htags
  unfold extract_actions
  rw [htags]
  simp only [collectActions]
  unfold removedTags
  rw [hflat, hdata, pyStripChars_idem, ← hdata]

/-- C10 witness: a concrete run whose clean text is marker-free, on which
a second extraction is the identity. -/
theorem extract_clean_reextract_witness :
    extract_actions "hi [ACTION:eat] there" = .ok ("hi  there", [.eat]) ∧
    containsTagMarker ("hi  there" : String).data = false ∧
    extract_actions "hi  there" = .ok ("hi  there", []) :=
  ⟨rfl, rfl, extract_clean_reextract "hi [ACTION:eat] there" "hi  there" [Action.eat] rfl rfl⟩

/- ── Conversation-window lemmas (C3) ───────────────────────────────────── -/

theorem trimGo_eq_drop (max : Nat) :
    ∀ (n : Nat) (ts : List Turn), ts.length ≤ n →
      trimGo max n ts = ts.drop (ts.length - max * 2) := by
  intro n
  induction n with
  | zero =>
    intro ts hn
    have : ts = [] := List.length_eq_zero.mp (Nat.le_zero.mp hn)
    subst this; simp [trimGo]
  | succ n ih =>
    intro ts hn
    rw [trimGo]
    by_cases h : ts.length > max * 2
    · have hne : ts ≠ [] := by
        intro he; subst he; simp at h
      have htail : ts.tail.length ≤ n := by
        cases ts with
        | nil => simp at hne
        | cons a l => simpa using Nat.le_of_succ_le_succ hn
      rw [if_pos h, ih ts.tail htail]
      cases ts with
      | nil => simp at hne
      | cons a l =>
        simp only [List.tail_cons, List.length_cons]
        have : l.length + 1 - max * 2 = (l.length - max * 2) + 1 := by
          simp only [List.length_cons] at h
          omega
        rw [this]
        rfl
    · rw [if_neg h]
      have : ts.length - max * 2 = 0 := by omega
      rw [this, List.drop_zero]

theorem trim_turns (h : ConversationHistory) :
    h.trim.turns = h.turns.drop (h.turns.length - h.max * 2) := by
  unfold ConversationHistory.trim
  exact trimGo_eq_drop h.max h.turns.length h.turns (Nat.le_refl _)

theorem trim_length (h : ConversationHistory) :
    h.trim.turns.length ≤ h.max * 2 ∨ h.trim.turns.length = h.turns.length := by
  rw [trim_turns, List.length_drop]
  omega

/-- Both append operations produce `trim` of the extended turn list. -/
theorem add_turns (h : ConversationHistory) (m : HistMsg) :
    (match m with
     | .user t gs => h.add_user t gs
     | .assistant t => h.add_assistant t) =
      ConversationHistory.trim ⟨h.max, h.turns ++ [renderTurn m]⟩ := by
  cases m with
  | user t gs => rfl
  | assistant t => rfl

theorem applyHist_turns :
    ∀ (ms : List HistMsg) (N : Nat) (L : List Turn), L.length ≤ N * 2 →
      (applyHist ⟨N, L⟩ ms).turns =
        (L ++ ms.map renderTurn).drop ((L.length + ms.length) - N * 2) ∧
      (applyHist ⟨N, L⟩ ms).max = N := by
  intro ms
  induction ms with
  | nil =>
    intro N L hL
    have h0 : L.length - N * 2 = 0 := by omega
    simp [applyHist, h0]
  | cons m ms ih =>
    intro N L hL
    have hstep :
        (applyHist ⟨N, L⟩ (m :: ms)) =
          (applyHist (ConversationHistory.trim ⟨N, L ++ [renderTurn m]⟩) ms) := by
      cases m with
      | user t gs => rfl
      | assistant t => rfl
    have htrim : (ConversationHistory.trim ⟨N, L ++ [renderTurn m]⟩) =
        (⟨N, (L ++ [renderTurn m]).drop ((L.length + 1) - N * 2)⟩ : ConversationHistory) := by
      have := trim_turns ⟨N, L ++ [renderTurn m]⟩
      unfold ConversationHistory.trim at this ⊢
      simp only at this ⊢
      rw [this]
      simp
    set d := (L.length + 1) - N * 2 with hd
    have hlen2 : ((L ++ [renderTurn m]).drop d).length ≤ N * 2 := by
      rw [List.length_drop]
      simp only [List.length_append, List.length_cons, List.length_nil]
      omega
    obtain ⟨ihturns, ihmax⟩ := ih N ((L ++ [renderTurn m]).drop d) hlen2
    rw [hstep, htrim]
    refine ⟨?_, by rw [ihmax]⟩
    rw [ihturns]
    have hdle : d ≤ (L ++ [renderTurn m]).length := by
      simp only [List.length_append, List.length_cons, List.length_nil]
      omega
    rw [← List.drop_append_of_le_length hdle, List.drop_drop]
    have hlists : (L ++ [renderTurn m]) ++ List.map renderTurn ms =
        L ++ List.map renderTurn (m :: ms) := by
      simp
    have hamt : d + ((List.drop d (L ++ [renderTurn m])).length + ms.length - N * 2) =
        L.length + (m :: ms).length - N * 2 := by
      simp only [List.length_drop, List.length_append, List.length_cons,
        List.length_nil, hd]
      omega
    rw [hamt, hlists]

/-- C3: the window never exceeds `2 × max_turns` after any append, and
appending `2N+1` turns to a fresh window of `max_turns = N` leaves exactly
the most recent `2N` turns in their original order. -/
theorem history_cap_invariant :
    (∀ (h : ConversationHistory) (t : String) (gs : Option GameState),
       (h.add_user t gs).turns.length ≤ 2 * h.max ∧
       (h.add_assistant t).turns.length ≤ 2 * h.max) ∧
    (∀ (N : Nat) (ms : List HistMsg), ms.length = 2 * N + 1 →
       (applyHist ⟨N, []⟩ ms).turns = (ms.map renderTurn).drop 1 ∧
       (applyHist ⟨N, []⟩ ms).turns.length = 2 * N) := by
  constructor
  · intro h t gs
    constructor
    · have := trim_turns ⟨h.max, h.turns ++ [⟨"user", userContent t gs⟩]⟩
      unfold ConversationHistory.add_user
      rw [this]
      simp only [List.length_drop, List.length_append, List.length_cons, List.length_nil]
      omega
    · have := trim_turns ⟨h.max, h.turns ++ [⟨"assistant", t⟩]⟩
      unfold ConversationHistory.add_assistant
      rw [this]
      simp only [List.length_drop, List.length_append, List.length_cons, List.length_nil]
      omega
  · intro N ms hms
    obtain ⟨hturns, -⟩ := applyHist_turns ms N [] (by simp)
    rw [hturns]
    simp only [List.nil_append, List.length_nil, Nat.zero_add]
    have h1 : ms.length - N * 2 = 1 := by omega
    rw [h1]
    refine ⟨rfl, ?_⟩
    rw [List.length_drop, List.length_map]
    omega

/-- C3 witness: `N = 1`, three alternating appends leave the two most
recent turns. -/
theorem history_cap_invariant_witness :
    ([HistMsg.user "hello" none, HistMsg.assistant "hi there",
      HistMsg.user "again" none] : List HistMsg).length = 2 * 1 + 1 ∧
    (applyHist ⟨1, []⟩ [HistMsg.user "hello" none, HistMsg.assistant "hi there",
      HistMsg.user "again" none]).turns =
      ([HistMsg.user "hello" none, HistMsg.assistant "hi there",
        HistMsg.user "again" none].map renderTurn).drop 1 ∧
    (applyHist ⟨1, []⟩ [HistMsg.user "hello" none, HistMsg.assistant "hi there",
      HistMsg.user "again" none]).turns.length = 2 * 1 :=
  ⟨rfl, history_cap_invariant.2 1 _ rfl⟩

/- ── Dict lemma ────────────────────────────────────────────────────────── -/

theorem dictGet_dictSet_self {α : Type} (d : List (String × α)) (k : String) (v : α) :
    dictGet (dictSet d k v) k = some v := by
  induction d with
  | nil => simp [dictGet, dictSet]
  | cons hd tl ih =>
    obtain ⟨k2, w⟩ := hd
    by_cases h : k2 = k
    · simp [dictGet, dictSet, h]
    · simp [dictGet, dictSet, h, ih]

/- ── Response-engine claims ────────────────────────────────────────────── -/

/-- C5: while the voice-active flag is true, `handle_game_event` is
suppressed and the whole state — in particular the Cooldown Table
(`lastEventTime`), the Pending Queue and the Context Window — is
unchanged. -/
theorem voice_active_suppression_frame :
    ∀ (cooldowns : List (String × Int)) (st : BrainState) (event_type : String)
      (data : EventData) (now : Int) (llm : Except Unit String),
      st.voiceActive = true →
      handle_game_event cooldowns st event_type data now llm = (.ok none, st) := by
  intro cooldowns st event_type data now llm h
  unfold handle_game_event
  rw [if_pos h]

/-- C5 witness. -/
theorem voice_active_suppression_frame_witness :
    ({ demoBrain with voiceActive := true } : BrainState).voiceActive = true ∧
    handle_game_event [] { demoBrain with voiceActive := true } "mob_spawn"
        [("name", "zombie")] 100 (.ok "whoa") =
      (.ok none, { demoBrain with voiceActive := true }) :=
  ⟨rfl, voice_active_suppression_frame [] _ "mob_spawn" [("name", "zombie")] 100
    (.ok "whoa") rfl⟩

/-- The first `handle_game_event` call produced a reply, so its admission
checks passed and the state it left behind is the processed-path state. -/
theorem handle_ok_some_shape (cooldowns : List (String × Int)) (st st1 : BrainState)
    (event_type : String) (data : EventData) (now : Int) (llm : Except Unit String)
    (r : String × List Action)
    (h : handle_game_event cooldowns st event_type data now llm = (.ok (some r), st1)) :
    st.voiceActive = false ∧
    st1.voiceActive = false ∧
    st1.lastEventTime = dictSet st.lastEventTime event_type now := by
  unfold handle_game_event at h
  by_cases hv : st.voiceActive
  · rw [if_pos hv] at h
    simp at h
  · rw [if_neg hv] at h
    simp only at h
    by_cases hcd : now - (dictGet st.lastEventTime event_type).getD 0 <
        cooldownFor cooldowns event_type
    · rw [if_pos hcd] at h
      simp at h
    · rw [if_neg hcd] at h
      by_cases hlock : st.lockLocked = true
      · rw [if_pos hlock] at h
        by_cases hq : 0 < st.queueCap ∧ st.queueCap ≤ st.queue.length
        · rw [if_pos hq] at h
          simp at h
        · rw [if_neg hq] at h
          simp at h
      · rw [if_neg hlock] at h
        cases hex : extract_actions (call_claude llm) with
        | error e =>
          rw [hex] at h
          simp at h
        | ok p =>
          rw [hex] at h
          simp only [Prod.mk.injEq, Except.ok.injEq, Option.some.injEq] at h
          refine ⟨Bool.eq_false_iff.mpr hv, ?_, ?_⟩
          · rw [← h.2]
            exact Bool.eq_false_iff.mpr hv
          · rw [← h.2]

/-- C4: once an event type has been processed (stamping the Cooldown
Table), a second call for the same type before the configured cooldown —
`COOLDOWNS.get(event_type, 30)` seconds since the processed call — has
elapsed is suppressed and leaves the whole state, in particular the
last-processed timestamp of that type, untouched. -/
theorem cooldown_suppresses_second_call :
    ∀ (cooldowns : List (String × Int)) (st st1 : BrainState) (event_type : String)
      (d1 d2 : EventData) (now1 now2 : Int) (llm1 llm2 : Except Unit String)
      (r : String × List Action),
      handle_game_event cooldowns st event_type d1 now1 llm1 = (.ok (some r), st1) →
      now2 - now1 < cooldownFor cooldowns event_type →
      handle_game_event cooldowns st1 event_type d2 now2 llm2 = (.ok none, st1) ∧
      (handle_game_event cooldowns st1 event_type d2 now2 llm2).2.lastEventTime =
        st1.lastEventTime := by
  intro cooldowns st st1 event_type d1 d2 now1 now2 llm1 llm2 r h1 h2
  obtain ⟨-, hv1, hstamp⟩ := handle_ok_some_shape cooldowns st st1 event_type d1 now1 llm1 r h1
  have hlast : (dictGet st1.lastEventTime event_type).getD 0 = now1 := by
    rw [hstamp, dictGet_dictSet_self]
    rfl
  have heq : handle_game_event cooldowns st1 event_type d2 now2 llm2 = (.ok none, st1) := by
    unfold handle_game_event
    rw [if_neg (by rw [hv1]; exact Bool.false_ne_true)]
    simp only [hlast]
    rw [if_pos h2]
  exact ⟨heq, by rw [heq]⟩

/-- C4 witness: a processed `mob_spawn` at time 100 suppresses a second
`mob_spawn` at time 110 (within the default 30-second cooldown). -/
theorem cooldown_suppresses_second_call_witness :
    handle_game_event [] demoBrain "mob_spawn" [("name", "zombie")] 100 (.ok "whoa") =
      (.ok (some ("whoa", [])),
       (handle_game_event [] demoBrain "mob_spawn" [("name", "zombie")] 100 (.ok "whoa")).2) ∧
    ((110 : Int) - 100 < cooldownFor [] "mob_spawn") ∧
    handle_game_event []
        (handle_game_event [] demoBrain "mob_spawn" [("name", "zombie")] 100 (.ok "whoa")).2
        "mob_spawn" [("name", "creeper")] 110 (.ok "another") =
      (.ok none,
       (handle_game_event [] demoBrain "mob_spawn" [("name", "zombie")] 100 (.ok "whoa")).2) :=
  ⟨rfl, by decide,
   (cooldown_suppresses_second_call [] demoBrain _ "mob_spawn" [("name", "zombie")]
     [("name", "creeper")] 100 110 (.ok "whoa") (.ok "another") ("whoa", []) rfl
     (by decide)).1⟩

/-- On a failed completion call the response text is the fixed fallback
utterance and it carries no action tags. -/
theorem extract_fallback : extract_actions FALLBACK_TEXT = .ok (FALLBACK_TEXT, []) := rfl

/-- C6: when the external completion call fails, `think` and — past its
admission checks — `handle_game_event` do not raise: they return the fixed
apologetic utterance with an empty action list, and that substitute text is
appended to the Context Window as the assistant turn. -/
theorem llm_failure_fallback :
    ∀ (cooldowns : List (String × Int)) (st : BrainState) (input event_type : String)
      (data : EventData) (now : Int) (e : Unit),
      think st input (.error e) =
        (.ok (FALLBACK_TEXT, []),
         { st with history := (st.history.add_user input
             (some st.gameState)).add_assistant FALLBACK_TEXT }) ∧
      (st.voiceActive = false →
       ¬ (now - (dictGet st.lastEventTime event_type).getD 0 <
            cooldownFor cooldowns event_type) →
       st.lockLocked = false →
       handle_game_event cooldowns st event_type data now (.error e) =
         (.ok (some (FALLBACK_TEXT, [])),
          { st with
              lastEventTime := dictSet st.lastEventTime event_type now,
              history := (st.history.add_user (build_event_prompt event_type data)
                (some st.gameState)).add_assistant FALLBACK_TEXT })) := by
  intro cooldowns st input event_type data now e
  constructor
  · unfold think
    simp only [call_claude, extract_fallback]
  · intro hv hcd hlock
    unfold handle_game_event
    rw [if_neg (by rw [hv]; exact Bool.false_ne_true), if_neg hcd,
      if_neg (by rw [hlock]; exact Bool.false_ne_true)]
    simp only [call_claude, extract_fallback]

/-- C6 witness: both entry points at a concrete state with a failing
completion call. -/
theorem llm_failure_fallback_witness :
    think demoBrain "you there?" (.error ()) =
      (.ok (FALLBACK_TEXT, []),
       { demoBrain with history := (demoBrain.history.add_user "you there?"
           (some demoBrain.gameState)).add_assistant FALLBACK_TEXT }) ∧
    (demoBrain.voiceActive = false ∧ demoBrain.lockLocked = false ∧
     ¬ ((100 : Int) - (dictGet demoBrain.lastEventTime "night_fall").getD 0 <
          cooldownFor [] "night_fall")) ∧
    handle_game_event [] demoBrain "night_fall" [] 100 (.error ()) =
      (.ok (some (FALLBACK_TEXT, [])),
       { demoBrain with
           lastEventTime := dictSet demoBrain.lastEventTime "night_fall" 100,
           history := (demoBrain.history.add_user (build_event_prompt "night_fall" [])
             (some demoBrain.gameState)).add_assistant FALLBACK_TEXT }) :=
  ⟨(llm_failure_fallback [] demoBrain "you there?" "night_fall" [] 100 ()).1,
   ⟨rfl, rfl, by decide⟩,
   (llm_failure_fallback [] demoBrain "you there?" "night_fall" [] 100 ()).2
     rfl (by decide) rfl⟩

/-- C8: no operation of the response engine ever dequeues the Pending
Queue — every operation leaves the queue as a prefix of its successor
(append-only) — and the reply any caller receives is independent of the
queue contents, so no caller ever receives a result originating from a
queued event. -/
theorem pending_queue_never_drained :
    ∀ (cooldowns : List (String × Int)) (st : BrainState) (op : BrainOp),
      (∃ ts, (brainStep cooldowns st op).2.queue = st.queue ++ ts) ∧
      (∀ q2, (brainStep cooldowns { st with queue := q2 } op).1 =
               (brainStep cooldowns st op).1) := by
  intro cooldowns st op
  cases op with
  | opThink input llm =>
    constructor
    · refine ⟨[], ?_⟩
      simp only [brainStep, think]
      cases extract_actions (call_claude llm) <;> simp
    · intro q2
      simp only [brainStep, think]
      cases extract_actions (call_claude llm) <;> simp
  | opSetVoice active =>
    exact ⟨⟨[], by simp [brainStep, set_voice_active]⟩, fun q2 => rfl⟩
  | opUpdateState gs =>
    exact ⟨⟨[], by simp [brainStep, update_game_state]⟩, fun q2 => rfl⟩
  | opEvent event_type data now llm =>
    constructor
    · simp only [brainStep, handle_game_event]
      by_cases hv : st.voiceActive <;> simp only [hv, if_true, if_false]
      · exact ⟨[], by simp⟩
      · by_cases hcd : now - (dictGet st.lastEventTime event_type).getD 0 <
            cooldownFor cooldowns event_type <;> simp only [hcd, if_true, if_false]
        · exact ⟨[], by simp⟩
        · by_cases hlock : st.lockLocked <;> simp only [hlock, if_true, if_false]
          · by_cases hq : 0 < st.queueCap ∧ st.queueCap ≤ st.queue.length <;>
              simp only [hq, if_true, if_false]
            · exact ⟨[], by simp⟩
            · exact ⟨[(event_type, data)], by simp⟩
          · cases extract_actions (call_claude llm) <;> exact ⟨[], by simp⟩
    · intro q2
      simp only [brainStep, handle_game_event]
      by_cases hv : st.voiceActive
      · simp [hv]
      · by_cases hcd : now - (dictGet st.lastEventTime event_type).getD 0 <
            cooldownFor cooldowns event_type
        · simp [hv, hcd]
        · by_cases hlock : st.lockLocked
          · simp [hv, hcd, hlock]
            try (split_ifs <;> rfl)
          · cases hex : extract_actions (call_claude llm) <;>
              simp [hv, hcd, hlock, hex]

/- ── Snapshot rendering claim (C7) ─────────────────────────────────────── -/

/-- C7 (code bug): a snapshot dict that is non-empty but has no recognized
field renders to the empty block, yet `add_user` still prefixes the
blank-line separator — the stored turn is `"\n\nhello"`, not the raw text
the spec describes. -/
theorem add_user_dangling_separator :
    snapshotNoRecognized.hasRecognizedField = false ∧
    snapshotNoRecognized.nonemptyDict = true ∧
    format_game_state snapshotNoRecognized = "" ∧
    userContent "hello" (some snapshotNoRecognized) = "\n\nhello" ∧
    (ConversationHistory.add_user ⟨5, []⟩ "hello" (some snapshotNoRecognized)).turns =
      [⟨"user", "\n\nhello"⟩] ∧
    ("\n\nhello" : String) ≠ "hello" :=
  ⟨rfl, rfl, rfl, rfl, rfl, by decide⟩

/-- C7 positive side: with the snapshot absent (or the dict empty/falsy)
the stored turn is exactly the raw text. -/
theorem add_user_no_snapshot_raw :
    ∀ (t : String), userContent t none = t ∧ userContent t (some {}) = t := by
  intro t
  exact ⟨rfl, rfl⟩

/- ── Bridge-server claim (C9) ──────────────────────────────────────────── -/

/-- C9: with no live connection, `send_action` and `send_chat` return
`False` without raising, and the message is not recorded anywhere for
later delivery — the state (including the log of delivered messages) is
unchanged. -/
theorem send_no_connection_fails :
    ∀ (st : WSState) (action : String) (params : Option (List (String × String)))
      (message : String) (outcome : SendOutcome),
      st.connected = false →
      send_action st action params outcome = (false, st) ∧
      send_chat st message outcome = (false, st) := by
  intro st action params message outcome h
  unfold send_chat send_action
  rw [h]
  simp

/-- C9 witness. -/
theorem send_no_connection_fails_witness :
    (⟨false, []⟩ : WSState).connected = false ∧
    send_action ⟨false, []⟩ "flee" none .delivered = (false, ⟨false, []⟩) ∧
    send_chat ⟨false, []⟩ "on my way" .delivered = (false, ⟨false, []⟩) :=
  ⟨rfl, (send_no_connection_fails ⟨false, []⟩ "flee" none "on my way" .delivered rfl).1,
   (send_no_connection_fails ⟨false, []⟩ "flee" none "on my way" .delivered rfl).2⟩

end CoopBuddy
